import Mathlib

/-!
Verification development for an SPH (Smoothed Particle Hydrodynamics) fluid
solver written in JavaScript on top of three.js.  The JavaScript sources are
shallowly embedded here: machine `number`s become real numbers, the three.js
`Vector3` operations become the corresponding operations on a `Vec3` record
(including the `length() || 1` fallback of `Vector3.normalize`), and the
in-place mutation of particle state becomes explicit state passing over lists
of particles.  Neighbor records, which in the source hold object references,
hold list indices here.
-/

noncomputable section

namespace Fluid

open Real

/-- Three-component real vector mirroring `THREE.Vector3`. -/
@[ext]
structure Vec3 where
  x : ℝ
  y : ℝ
  z : ℝ

namespace Vec3

/-- `THREE.Vector3.add` (componentwise). -/
def add (a b : Vec3) : Vec3 := ⟨a.x + b.x, a.y + b.y, a.z + b.z⟩

/-- `THREE.Vector3.sub` (componentwise). -/
def sub (a b : Vec3) : Vec3 := ⟨a.x - b.x, a.y - b.y, a.z - b.z⟩

/-- `THREE.Vector3.multiplyScalar`. -/
def multiplyScalar (v : Vec3) (s : ℝ) : Vec3 := ⟨v.x * s, v.y * s, v.z * s⟩

/-- `THREE.Vector3.divideScalar`, implemented upstream as
`multiplyScalar(1 / scalar)`. -/
def divideScalar (v : Vec3) (s : ℝ) : Vec3 := v.multiplyScalar (1 / s)

/-- `THREE.Vector3.dot`. -/
def dot (a b : Vec3) : ℝ := a.x * b.x + a.y * b.y + a.z * b.z

/-- `THREE.Vector3.length`: `sqrt(x*x + y*y + z*z)`. -/
def length (v : Vec3) : ℝ := Real.sqrt (v.x * v.x + v.y * v.y + v.z * v.z)

/-- `THREE.Vector3.distanceTo`: square root of the componentwise squared
difference sum. -/
def distanceTo (a b : Vec3) : ℝ :=
  Real.sqrt ((a.x - b.x) * (a.x - b.x) + (a.y - b.y) * (a.y - b.y) +
    (a.z - b.z) * (a.z - b.z))

/-- `THREE.Vector3.normalize`: `divideScalar(length() || 1)` — a zero-length
vector is divided by `1`, i.e. left unchanged (the zero vector). -/
def normalize (v : Vec3) : Vec3 :=
  v.divideScalar (if v.length = 0 then 1 else v.length)

/-- Componentwise negation (`multiplyScalar (-1)`), used to state
reciprocality of direction vectors. -/
def neg (v : Vec3) : Vec3 := v.multiplyScalar (-1)

/-- The zero vector `new THREE.Vector3(0, 0, 0)`. -/
def zero : Vec3 := ⟨0, 0, 0⟩

theorem distanceTo_comm (a b : Vec3) : a.distanceTo b = b.distanceTo a := by
  unfold distanceTo; congr 1; ring

theorem distanceTo_nonneg (a b : Vec3) : 0 ≤ a.distanceTo b :=
  Real.sqrt_nonneg _

theorem distanceTo_eq_length_sub (a b : Vec3) :
    a.distanceTo b = (a.sub b).length := by
  unfold distanceTo length sub; norm_num

theorem length_neg (v : Vec3) : v.neg.length = v.length := by
  unfold length neg multiplyScalar; congr 1; ring

theorem sub_eq_neg_sub (a b : Vec3) : a.sub b = (b.sub a).neg := by
  unfold sub neg multiplyScalar; ext <;> ring

theorem normalize_neg (v : Vec3) : v.neg.normalize = v.normalize.neg := by
  unfold normalize divideScalar
  rw [length_neg]
  unfold neg multiplyScalar
  ext <;> ring

theorem multiplyScalar_neg (v : Vec3) (s : ℝ) :
    v.neg.multiplyScalar s = (v.multiplyScalar s).neg := by
  unfold neg multiplyScalar; ext <;> ring

theorem distanceTo_eq_length_sub_rev (a b : Vec3) :
    a.distanceTo b = (b.sub a).length := by
  rw [distanceTo_comm, distanceTo_eq_length_sub]

theorem neg_neg (v : Vec3) : v.neg.neg = v := by
  unfold neg multiplyScalar; ext <;> ring

theorem zero_add (v : Vec3) : Vec3.zero.add v = v := by
  unfold zero add; ext <;> simp

end Vec3

/-- `THREE.Box3` as used for the bounding box: a min and a max corner. -/
structure Box3 where
  min : Vec3
  max : Vec3

/-- One neighbor record pushed by `findNeighbors`:
`{ particle: other, distance: dist, direction: … }`.  The object reference
`other` is represented by its index in the particle list. -/
structure NeighborEntry where
  idx : ℕ
  distance : ℝ
  direction : Vec3

/-- `SPHParticle`: kinematic and field state of one particle. -/
structure SPHParticle where
  position : Vec3
  velocity : Vec3
  acceleration : Vec3
  force : Vec3
  mass : ℝ
  density : ℝ
  pressure : ℝ
  neighbors : List NeighborEntry

/-- The `SPHParticle` constructor: clones the position, zeroes the dynamic
state, stores the mass. -/
def mkParticle (position : Vec3) (mass : ℝ) : SPHParticle :=
  { position := position
    velocity := Vec3.zero
    acceleration := Vec3.zero
    force := Vec3.zero
    mass := mass
    density := 0
    pressure := 0
    neighbors := [] }

instance : Inhabited SPHParticle := ⟨mkParticle Vec3.zero 0⟩

/-- Array indexing through an object reference: `particles[j]` (total, with a
default particle out of range; all uses are in range). -/
def partAt (ps : List SPHParticle) (i : ℕ) : SPHParticle := ps.getD i default

/-- Obstacle variant: a sphere `{position, radius}`. -/
structure SphereObstacle where
  position : Vec3
  radius : ℝ

/-- Obstacle variant: a box with its constructor-derived `min`/`max`
corners. -/
structure BoxObstacle where
  position : Vec3
  size : Vec3
  min : Vec3
  max : Vec3

/-- The `BoxObstacle` constructor: derives `min = position - size/2` and
`max = position + size/2`. -/
def mkBoxObstacle (position size : Vec3) : BoxObstacle :=
  { position := position
    size := size
    min := position.sub (size.multiplyScalar 0.5)
    max := position.add (size.multiplyScalar 0.5) }

/-- `SphereObstacle.handleCollision`, as a pure map on (position, velocity).
Penetration when `distance < radius + 0.05`; the particle is moved to
`center + normal * (radius + 0.05)` where `normal = normalize(position -
center)`; an inward normal velocity is reflected and damped. -/
def SphereObstacle.handleCollision (s : SphereObstacle) (pos vel : Vec3)
    (damping : ℝ) : Vec3 × Vec3 :=
  let distance := pos.distanceTo s.position
  let minDistance := s.radius + 0.05
  if distance < minDistance then
    let normal := (pos.sub s.position).normalize
    let pos' := s.position.add (normal.multiplyScalar minDistance)
    let velocityAlongNormal := vel.dot normal
    if velocityAlongNormal < 0 then
      (pos', (vel.sub (normal.multiplyScalar (2 * velocityAlongNormal))).multiplyScalar damping)
    else
      (pos', vel)
  else
    (pos, vel)

/-- The strict-interior test opening `BoxObstacle.handleCollision`. -/
def boxContains (b : BoxObstacle) (p : Vec3) : Prop :=
  b.min.x < p.x ∧ p.x < b.max.x ∧ b.min.y < p.y ∧ p.y < b.max.y ∧
    b.min.z < p.z ∧ p.z < b.max.z

instance (b : BoxObstacle) (p : Vec3) : Decidable (boxContains b p) := by
  unfold boxContains; infer_instance

/-- The minimum of the six face distances computed inside
`BoxObstacle.handleCollision` (`Math.min` of the six). -/
def boxMinDist (b : BoxObstacle) (p : Vec3) : ℝ :=
  min (p.x - b.min.x) (min (b.max.x - p.x) (min (p.y - b.min.y)
    (min (b.max.y - p.y) (min (p.z - b.min.z) (b.max.z - p.z)))))

/-- The `if/else if` chain of `BoxObstacle.handleCollision` selecting the
nearest face: returns the axis-aligned collision normal and the position with
the selected coordinate snapped onto that face.  The final fallback (normal
`(0,0,0)`, position untouched) mirrors the source's chain having no `else`;
it is unreachable because the minimum equals one of the six distances. -/
def boxFace (b : BoxObstacle) (p : Vec3) : Vec3 × Vec3 :=
  let minDist := boxMinDist b p
  if minDist = p.x - b.min.x then (⟨-1, 0, 0⟩, ⟨b.min.x, p.y, p.z⟩)
  else if minDist = b.max.x - p.x then (⟨1, 0, 0⟩, ⟨b.max.x, p.y, p.z⟩)
  else if minDist = p.y - b.min.y then (⟨0, -1, 0⟩, ⟨p.x, b.min.y, p.z⟩)
  else if minDist = b.max.y - p.y then (⟨0, 1, 0⟩, ⟨p.x, b.max.y, p.z⟩)
  else if minDist = p.z - b.min.z then (⟨0, 0, -1⟩, ⟨p.x, p.y, b.min.z⟩)
  else if minDist = b.max.z - p.z then (⟨0, 0, 1⟩, ⟨p.x, p.y, b.max.z⟩)
  else (⟨0, 0, 0⟩, p)

/-- `BoxObstacle.handleCollision` as a pure map on (position, velocity):
no-op unless the particle is strictly inside the box; otherwise snap onto the
nearest face and, if the velocity points into the box along the face normal,
reflect that component and damp the whole velocity. -/
def BoxObstacle.handleCollision (b : BoxObstacle) (pos vel : Vec3)
    (damping : ℝ) : Vec3 × Vec3 :=
  if boxContains b pos then
    let nf := boxFace b pos
    let velocityAlongNormal := vel.dot nf.1
    if velocityAlongNormal < 0 then
      (nf.2, (vel.sub (nf.1.multiplyScalar (2 * velocityAlongNormal))).multiplyScalar damping)
    else
      (nf.2, vel)
  else
    (pos, vel)

/-- The polymorphic obstacle (base class with the two subclasses in the
source), as a tagged variant. -/
inductive Obstacle where
  | sphere (s : SphereObstacle)
  | box (b : BoxObstacle)

/-- Dynamic dispatch of `obstacle.handleCollision(particle, damping)`. -/
def Obstacle.handleCollision : Obstacle → Vec3 → Vec3 → ℝ → Vec3 × Vec3
  | .sphere s, pos, vel, damping => s.handleCollision pos vel damping
  | .box b, pos, vel, damping => b.handleCollision pos vel damping

/-- The constructor's options object: every recognized option, each
optional. -/
structure SPHParams where
  particleMass : Option ℝ := none
  restDensity : Option ℝ := none
  gasConstant : Option ℝ := none
  smoothingRadius : Option ℝ := none
  viscosity : Option ℝ := none
  timeStep : Option ℝ := none
  gravity : Option Vec3 := none
  boundingBox : Option Box3 := none
  surfaceTension : Option ℝ := none
  surfaceThreshold : Option ℝ := none

/-- JavaScript `params.x || default` for numeric options: an absent option
and the (falsy) value `0` both fall back to the default; any other number is
kept. -/
def jsOrR (o : Option ℝ) (d : ℝ) : ℝ :=
  match o with
  | none => d
  | some v => if v = 0 then d else v

/-- JavaScript `params.x || default` for object options: objects are always
truthy, so only an absent option falls back. -/
def jsOrObj {α : Type} (o : Option α) (d : α) : α := o.getD d

/-- The solver state set up by the `SPHSystem` constructor. -/
structure SPHSystem where
  particleMass : ℝ
  restDensity : ℝ
  gasConstant : ℝ
  h : ℝ
  h2 : ℝ
  viscosity : ℝ
  dt : ℝ
  gravity : Vec3
  boundingBox : Box3
  surfaceTension : ℝ
  surfaceThreshold : ℝ
  particles : List SPHParticle
  obstacles : List Obstacle
  poly6Constant : ℝ
  spikyGradConstant : ℝ
  viscosityLaplaceConstant : ℝ

/-- The `SPHSystem` constructor: `||`-defaulting of every option, empty
particle and obstacle lists, and the three kernel constants precomputed from
`h`.  It is a total function: no configuration is rejected. -/
def mkSPHSystem (params : SPHParams) : SPHSystem :=
  let h := jsOrR params.smoothingRadius 0.16
  { particleMass := jsOrR params.particleMass 1.0
    restDensity := jsOrR params.restDensity 1000.0
    gasConstant := jsOrR params.gasConstant 2000.0
    h := h
    h2 := h * h
    viscosity := jsOrR params.viscosity 0.018
    dt := jsOrR params.timeStep 0.004
    gravity := jsOrObj params.gravity ⟨0, -9.8, 0⟩
    boundingBox := jsOrObj params.boundingBox ⟨⟨-1, -1, -1⟩, ⟨1, 1, 1⟩⟩
    surfaceTension := jsOrR params.surfaceTension 0.0728
    surfaceThreshold := jsOrR params.surfaceThreshold 7.065
    particles := []
    obstacles := []
    poly6Constant := 315.0 / (64.0 * π * h ^ 9)
    spikyGradConstant := -45.0 / (π * h ^ 6)
    viscosityLaplaceConstant := 45.0 / (π * h ^ 6) }

/-- `SPHSystem.addParticle`: push a particle carrying the solver's
`particleMass` at the given position. -/
def SPHSystem.addParticle (S : SPHSystem) (ps : List SPHParticle)
    (position : Vec3) : List SPHParticle :=
  ps ++ [mkParticle position S.particleMass]

/-- `SPHSystem.poly6Kernel`. -/
def SPHSystem.poly6Kernel (S : SPHSystem) (r h : ℝ) : ℝ :=
  if r > h then 0
  else
    let term := h * h - r * r
    S.poly6Constant * (term * term * term)

/-- `SPHSystem.spikyGradKernel`. -/
def SPHSystem.spikyGradKernel (S : SPHSystem) (r h : ℝ) (dir : Vec3) : Vec3 :=
  if r > h ∨ r < 0.0001 then Vec3.zero
  else
    let term := h - r
    dir.multiplyScalar (S.spikyGradConstant * term * term / r)

/-- `SPHSystem.viscosityLaplaceKernel`. -/
def SPHSystem.viscosityLaplaceKernel (S : SPHSystem) (r h : ℝ) : ℝ :=
  if r > h then 0 else S.viscosityLaplaceConstant * (h - r)

/-- The inner loop of `findNeighbors` for the particle at index `i`: scan
every other particle, skip the particle itself (reference identity, here
index equality), and record `{particle, distance, direction}` whenever
`distance < h`. -/
def neighborsOf (h : ℝ) (ps : List SPHParticle) (i : ℕ) : List NeighborEntry :=
  (List.range ps.length).filterMap fun j =>
    if j = i then none
    else
      let dist := (partAt ps i).position.distanceTo (partAt ps j).position
      if dist < h then
        some ⟨j, dist, ((partAt ps j).position.sub (partAt ps i).position).normalize⟩
      else none

/-- `SPHSystem.findNeighbors`: rebuild every particle's neighbor list by the
brute-force all-pairs scan. -/
def SPHSystem.findNeighbors (S : SPHSystem) (ps : List SPHParticle) :
    List SPHParticle :=
  (List.range ps.length).map fun i =>
    { partAt ps i with neighbors := neighborsOf S.h ps i }

/-- `SPHSystem.computeDensityPressure`: density starts from the
self-contribution `poly6Kernel(0, h) * mass`, adds
`neighbor.mass * poly6Kernel(distance, h)` for every recorded neighbor, and
pressure follows the equation of state
`gasConstant * (density - restDensity)`. -/
def SPHSystem.computeDensityPressure (S : SPHSystem) (ps : List SPHParticle) :
    List SPHParticle :=
  ps.map fun p =>
    let density := p.neighbors.foldl
      (fun acc nb => acc + (partAt ps nb.idx).mass * S.poly6Kernel nb.distance S.h)
      (S.poly6Kernel 0 S.h * p.mass)
    { p with
      density := density
      pressure := S.gasConstant * (density - S.restDensity) }

/-- The pressure-force accumulator of `computeForces` for the particle at
index `i`: over its neighbors, add
`spikyGradKernel(dist, h, dir) * (-other.mass * (p_i + p_other) / (2 * ρ_other))`. -/
def pressureForceAt (S : SPHSystem) (ps : List SPHParticle) (i : ℕ) : Vec3 :=
  (partAt ps i).neighbors.foldl
    (fun acc nb =>
      let other := partAt ps nb.idx
      let pressureGrad := S.spikyGradKernel nb.distance S.h nb.direction
      let pressureTerm := ((partAt ps i).pressure + other.pressure) / (2.0 * other.density)
      acc.add (pressureGrad.multiplyScalar (-other.mass * pressureTerm)))
    Vec3.zero

/-- The bounding-box part of `SPHSystem.handleCollisions` for one particle:
per axis, clamp to the violated wall and multiply that velocity component by
`-damping`. -/
def wallCollide (box : Box3) (damping : ℝ) (pos vel : Vec3) : Vec3 × Vec3 :=
  let px := if pos.x < box.min.x then box.min.x
    else if pos.x > box.max.x then box.max.x else pos.x
  let vx := if pos.x < box.min.x then vel.x * (-damping)
    else if pos.x > box.max.x then vel.x * (-damping) else vel.x
  let py := if pos.y < box.min.y then box.min.y
    else if pos.y > box.max.y then box.max.y else pos.y
  let vy := if pos.y < box.min.y then vel.y * (-damping)
    else if pos.y > box.max.y then vel.y * (-damping) else vel.y
  let pz := if pos.z < box.min.z then box.min.z
    else if pos.z > box.max.z then box.max.z else pos.z
  let vz := if pos.z < box.min.z then vel.z * (-damping)
    else if pos.z > box.max.z then vel.z * (-damping) else vel.z
  (⟨px, py, pz⟩, ⟨vx, vy, vz⟩)

/-- `SPHSystem.handleCollisions`: for every particle, the bounding-box
clamp-and-reflect with the fixed `damping = 0.5`, then every obstacle's
collision handler in list order. -/
def SPHSystem.handleCollisions (S : SPHSystem) (ps : List SPHParticle) :
    List SPHParticle :=
  let damping : ℝ := 0.5
  ps.map fun p =>
    let wall := wallCollide S.boundingBox damping p.position p.velocity
    let res := S.obstacles.foldl
      (fun pv ob => Obstacle.handleCollision ob pv.1 pv.2 damping) wall
    { p with position := res.1, velocity := res.2 }

/-- `SPHSystem.initializeParticles` starting from an empty collection:
`nx`/`ny`/`nz` are the floors of the region extents over the spacing
`0.5 * h`; the nested `x`-outer / `y`-middle / `z`-inner loops are embedded
as a fold over the lexicographic grid in which each iteration creates a
particle only while `created < count` (the source's `&& created < count`
early exit). -/
def SPHSystem.initializeParticles (S : SPHSystem) (count : ℕ) (region : Box3) :
    List SPHParticle :=
  let spacing := S.h * 0.5
  let nx := (⌊(region.max.x - region.min.x) / spacing⌋).toNat
  let ny := (⌊(region.max.y - region.min.y) / spacing⌋).toNat
  let nz := (⌊(region.max.z - region.min.z) / spacing⌋).toNat
  let grid := (List.range nx).flatMap fun i =>
    (List.range ny).flatMap fun j =>
      (List.range nz).map fun (k : ℕ) =>
        (⟨region.min.x + i * spacing, region.min.y + j * spacing,
          region.min.z + k * spacing⟩ : Vec3)
  (grid.foldl
    (fun st position =>
      if st.2 < count then (S.addParticle st.1 position, st.2 + 1) else st)
    ([], 0)).1

/-! ### Helper lemmas about list lookups and the neighbor search -/

theorem partAt_eq_getElem (ps : List SPHParticle) (i : ℕ) (h : i < ps.length) :
    partAt ps i = ps[i] :=
  List.getD_eq_getElem ps default h

theorem partAt_cons_zero (p : SPHParticle) (l : List SPHParticle) :
    partAt (p :: l) 0 = p := rfl

theorem partAt_cons_one (p q : SPHParticle) (l : List SPHParticle) :
    partAt (p :: q :: l) 1 = q := rfl

theorem partAt_map (g : SPHParticle → SPHParticle) (ps : List SPHParticle)
    (i : ℕ) (h : i < ps.length) : partAt (ps.map g) i = g (partAt ps i) := by
  have h' : i < (ps.map g).length := by simpa using h
  rw [partAt, List.getD_eq_getElem _ _ h', List.getElem_map,
    partAt, List.getD_eq_getElem _ _ h]

theorem length_findNeighbors (S : SPHSystem) (ps : List SPHParticle) :
    (S.findNeighbors ps).length = ps.length := by
  simp [SPHSystem.findNeighbors]

theorem partAt_findNeighbors (S : SPHSystem) (ps : List SPHParticle) (i : ℕ)
    (h : i < ps.length) :
    partAt (S.findNeighbors ps) i =
      { partAt ps i with neighbors := neighborsOf S.h ps i } := by
  have h' : i < ((List.range ps.length).map fun i =>
      { partAt ps i with neighbors := neighborsOf S.h ps i }).length := by simpa using h
  rw [SPHSystem.findNeighbors, partAt, List.getD_eq_getElem _ _ h',
    List.getElem_map, List.getElem_range]

theorem mem_neighborsOf {h : ℝ} {ps : List SPHParticle} {i : ℕ}
    {e : NeighborEntry} :
    e ∈ neighborsOf h ps i ↔
      e.idx < ps.length ∧ e.idx ≠ i ∧
      (partAt ps i).position.distanceTo (partAt ps e.idx).position < h ∧
      e.distance = (partAt ps i).position.distanceTo (partAt ps e.idx).position ∧
      e.direction = ((partAt ps e.idx).position.sub (partAt ps i).position).normalize := by
  unfold neighborsOf
  rw [List.mem_filterMap]
  constructor
  · rintro ⟨j, hj, hfe⟩
    rw [List.mem_range] at hj
    by_cases hji : j = i
    · simp [hji] at hfe
    · simp only [if_neg hji] at hfe
      by_cases hd : (partAt ps i).position.distanceTo (partAt ps j).position < h
      · simp only [if_pos hd, Option.some.injEq] at hfe
        subst hfe
        exact ⟨hj, hji, hd, rfl, rfl⟩
      · simp [hd] at hfe
  · rintro ⟨hlt, hne, hd, hdist, hdir⟩
    refine ⟨e.idx, List.mem_range.mpr hlt, ?_⟩
    rw [if_neg hne]
    simp only [if_pos hd]
    cases e
    simp_all

/-! ### C6: kernel support -/

/-- C6: for every `r > h`, `poly6Kernel(r,h) = 0`,
`spikyGradKernel(r,h,dir)` is the zero vector, and
`viscosityLaplaceKernel(r,h) = 0`; and at the support boundary
`poly6Kernel(h,h) = 0`. -/
theorem kernel_support (S : SPHSystem) :
    (∀ r dir, S.h < r →
      S.poly6Kernel r S.h = 0 ∧ S.spikyGradKernel r S.h dir = Vec3.zero ∧
        S.viscosityLaplaceKernel r S.h = 0) ∧
    S.poly6Kernel S.h S.h = 0 := by
  constructor
  · intro r dir hr
    refine ⟨?_, ?_, ?_⟩
    · rw [SPHSystem.poly6Kernel, if_pos hr]
    · rw [SPHSystem.spikyGradKernel, if_pos (Or.inl hr)]
    · rw [SPHSystem.viscosityLaplaceKernel, if_pos hr]
  · rw [SPHSystem.poly6Kernel, if_neg (lt_irrefl S.h)]
    simp

/-- Witness for `kernel_support` at the default configuration and `r = 1`. -/
theorem kernel_support_witness :
    (mkSPHSystem {}).h < 1 ∧
      ((mkSPHSystem {}).poly6Kernel 1 (mkSPHSystem {}).h = 0 ∧
        (mkSPHSystem {}).spikyGradKernel 1 (mkSPHSystem {}).h ⟨1, 2, 3⟩ = Vec3.zero ∧
        (mkSPHSystem {}).viscosityLaplaceKernel 1 (mkSPHSystem {}).h = 0) :=
  ⟨by norm_num [mkSPHSystem, jsOrR],
    (kernel_support (mkSPHSystem {})).1 1 ⟨1, 2, 3⟩
      (by norm_num [mkSPHSystem, jsOrR])⟩

/-! ### C7: near-zero distance guard of the gradient kernel -/

/-- C7: for every `r < 1e-4` (in particular `r = 0`),
`spikyGradKernel(r,h,dir)` returns the zero vector — the division by `r` in
its else-branch is never reached with a near-zero denominator. -/
theorem spikyGrad_small_r_zero (S : SPHSystem) (r h' : ℝ) (dir : Vec3)
    (hr : r < 0.0001) : S.spikyGradKernel r h' dir = Vec3.zero := by
  rw [SPHSystem.spikyGradKernel, if_pos (Or.inr hr)]

/-- Witness for `spikyGrad_small_r_zero` at `r = 0`. -/
theorem spikyGrad_small_r_zero_witness :
    (0 : ℝ) < 0.0001 ∧
      (mkSPHSystem {}).spikyGradKernel 0 (mkSPHSystem {}).h ⟨1, 2, 3⟩ = Vec3.zero :=
  ⟨by norm_num,
    spikyGrad_small_r_zero (mkSPHSystem {}) 0 (mkSPHSystem {}).h ⟨1, 2, 3⟩
      (by norm_num)⟩

/-! ### C2: sphere obstacle push-out at the exact center -/

/-- C2 (failing-input evaluation): a particle exactly at a sphere obstacle's
center is NOT pushed out.  `normalize` of the zero vector falls back to
dividing by `1` and yields the zero normal, so the position is rewritten to
`center + 0 * (radius + 0.05) = center` and the velocity is untouched: the
post-collision distance to the center is `0`, not `radius + 0.05`. -/
theorem sphere_center_collision_no_pushout :
    SphereObstacle.handleCollision ⟨⟨0, 0, 0⟩, 1⟩ ⟨0, 0, 0⟩ ⟨0, 0, -1⟩ 0.5 =
      (⟨0, 0, 0⟩, ⟨0, 0, -1⟩) ∧
    (SphereObstacle.handleCollision ⟨⟨0, 0, 0⟩, 1⟩ ⟨0, 0, 0⟩ ⟨0, 0, -1⟩ 0.5).1.distanceTo
        ⟨0, 0, 0⟩ = 0 ∧
    (0 : ℝ) ≠ 1 + 0.05 := by
  have hmain :
      SphereObstacle.handleCollision ⟨⟨0, 0, 0⟩, 1⟩ ⟨0, 0, 0⟩ ⟨0, 0, -1⟩ 0.5 =
        (⟨0, 0, 0⟩, ⟨0, 0, -1⟩) := by
    rw [SphereObstacle.handleCollision]
    norm_num [Vec3.distanceTo, Vec3.sub, Vec3.normalize, Vec3.length,
      Vec3.divideScalar, Vec3.multiplyScalar, Vec3.add, Vec3.dot, Vec3.zero,
      Real.sqrt_zero]
  refine ⟨hmain, ?_, by norm_num⟩
  rw [hmain]
  norm_num [Vec3.distanceTo, Real.sqrt_zero]

/-! ### C3: construction-time validation -/

theorem mkSPH_poly6Constant_neg (p : SPHParams) (v : ℝ)
    (hz : p.smoothingRadius = some v) (hv : v < 0) :
    (mkSPHSystem p).poly6Constant < 0 := by
  have hval : (mkSPHSystem p).poly6Constant = 315.0 / (64.0 * π * v ^ 9) := by
    simp [mkSPHSystem, jsOrR, hz, ne_of_lt hv]
  rw [hval]
  have hpow : v ^ 9 < 0 := Odd.pow_neg ⟨4, by norm_num⟩ hv
  have hden : (64.0 : ℝ) * π * v ^ 9 < 0 :=
    mul_neg_of_pos_of_neg (by have := Real.pi_pos; positivity) hpow
  exact div_neg_of_pos_of_neg (by norm_num) hden

/-- C3 counterexample: construction does NOT reject a non-positive
`smoothingRadius`.  With `smoothingRadius = -1` the constructor returns a
solver whose `h` is `-1` and whose `poly6Constant` is negative — exactly the
outcome the claim says is prevented — and with `smoothingRadius = 0` the `||`
fallback silently substitutes the default `0.16` instead of failing. -/
theorem construction_accepts_nonpositive_radius :
    (mkSPHSystem { smoothingRadius := some (-1) }).h = -1 ∧
    (mkSPHSystem { smoothingRadius := some (-1) }).poly6Constant < 0 ∧
    (mkSPHSystem { smoothingRadius := some 0 }).h = 0.16 :=
  ⟨by norm_num [mkSPHSystem, jsOrR],
    mkSPH_poly6Constant_neg _ (-1) rfl (by norm_num),
    by norm_num [mkSPHSystem, jsOrR]⟩

/-- C3 amended: constructing an `SPHSystem` never fails.  A `smoothingRadius`
or `particleMass` equal to `0` is silently replaced by its default
(`0.16` / `1.0`) by the `||` fallback, while a negative value is accepted
unchanged; a negative `smoothingRadius` yields a negative `poly6Constant`. -/
theorem construction_total_fallback (p : SPHParams) (v : ℝ) :
    ((p.smoothingRadius = some 0 ∨ p.smoothingRadius = none) →
      (mkSPHSystem p).h = 0.16) ∧
    ((p.particleMass = some 0 ∨ p.particleMass = none) →
      (mkSPHSystem p).particleMass = 1.0) ∧
    (p.smoothingRadius = some v → v ≠ 0 → (mkSPHSystem p).h = v) ∧
    (p.smoothingRadius = some v → v < 0 →
      (mkSPHSystem p).poly6Constant < 0) ∧
    (p.particleMass = some v → v ≠ 0 → (mkSPHSystem p).particleMass = v) := by
  refine ⟨?_, ?_, ?_, ?_, ?_⟩
  · rintro (hz | hz) <;> simp [mkSPHSystem, jsOrR, hz]
  · rintro (hz | hz) <;> simp [mkSPHSystem, jsOrR, hz]
  · intro hz hv
    simp [mkSPHSystem, jsOrR, hz, hv]
  · intro hz hv
    exact mkSPH_poly6Constant_neg p v hz hv
  · intro hz hv
    simp [mkSPHSystem, jsOrR, hz, hv]

/-- Witness for `construction_total_fallback` at `smoothingRadius = -2`. -/
theorem construction_total_fallback_witness :
    ({ smoothingRadius := some (-2) } : SPHParams).smoothingRadius = some (-2) ∧
    (-2 : ℝ) < 0 ∧
    (mkSPHSystem { smoothingRadius := some (-2) }).poly6Constant < 0 :=
  ⟨rfl, by norm_num,
    (construction_total_fallback { smoothingRadius := some (-2) } (-2)).2.2.2.1
      rfl (by norm_num)⟩

/-! ### C4: density positivity -/

theorem le_foldl_add {α : Type} (g : α → ℝ) :
    ∀ (l : List α) (a : ℝ), (∀ e ∈ l, 0 ≤ g e) →
      a ≤ l.foldl (fun acc e => acc + g e) a := by
  intro l
  induction l with
  | nil => intro a _; simp
  | cons e l ih =>
    intro a hall
    simp only [List.foldl_cons]
    calc a ≤ a + g e := le_add_of_nonneg_right (hall e (by simp))
    _ ≤ _ := ih (a + g e) (fun e' he' => hall e' (by simp [he']))

theorem poly6Kernel_nonneg (S : SPHSystem) (h r : ℝ)
    (hC : 0 ≤ S.poly6Constant) (hr : 0 ≤ r) : 0 ≤ S.poly6Kernel r h := by
  rw [SPHSystem.poly6Kernel]
  split_ifs with hgt
  · exact le_refl 0
  · push_neg at hgt
    have hterm : 0 ≤ h * h - r * r := by nlinarith
    show (0 : ℝ) ≤ S.poly6Constant * ((h * h - r * r) * (h * h - r * r) * (h * h - r * r))
    exact mul_nonneg hC (mul_nonneg (mul_nonneg hterm hterm) hterm)

theorem poly6Kernel_zero_pos (S : SPHSystem) (h : ℝ)
    (hC : 0 < S.poly6Constant) (hh : 0 < h) : 0 < S.poly6Kernel 0 h := by
  rw [SPHSystem.poly6Kernel, if_neg (not_lt.mpr hh.le)]
  show (0 : ℝ) < S.poly6Constant * ((h * h - 0 * 0) * (h * h - 0 * 0) * (h * h - 0 * 0))
  have hterm : (0 : ℝ) < h * h - 0 * 0 := by nlinarith
  exact mul_pos hC (mul_pos (mul_pos hterm hterm) hterm)

theorem poly6Constant_pos (p : SPHParams) (hh : 0 < (mkSPHSystem p).h) :
    0 < (mkSPHSystem p).poly6Constant := by
  have hR : (0 : ℝ) < jsOrR p.smoothingRadius 0.16 := hh
  show (0 : ℝ) < 315.0 / (64.0 * π * (jsOrR p.smoothingRadius 0.16) ^ 9)
  have hden : (0 : ℝ) < 64.0 * π * (jsOrR p.smoothingRadius 0.16) ^ 9 := by
    have := Real.pi_pos
    positivity
  exact div_pos (by norm_num) hden

/-- C4: after `findNeighbors` and `computeDensityPressure`, every particle's
density is strictly positive, for any non-empty particle collection with
positive masses on a solver with positive smoothing radius — the
self-contribution `poly6Kernel(0,h) * mass` is strictly positive and every
neighbor contribution is non-negative. -/
theorem density_pos (p : SPHParams) (ps : List SPHParticle) (i : ℕ)
    (hh : 0 < (mkSPHSystem p).h) (hm : ∀ q ∈ ps, 0 < q.mass)
    (hi : i < ps.length) :
    0 < (partAt ((mkSPHSystem p).computeDensityPressure
          ((mkSPHSystem p).findNeighbors ps)) i).density := by
  set S := mkSPHSystem p with hS
  have hC : 0 < S.poly6Constant := poly6Constant_pos p hh
  have hmass : ∀ j, j < ps.length → 0 < (partAt ps j).mass := by
    intro j hj
    rw [partAt_eq_getElem _ _ hj]
    exact hm _ (List.getElem_mem hj)
  have hlen : i < (S.findNeighbors ps).length := by
    rw [length_findNeighbors]; exact hi
  rw [SPHSystem.computeDensityPressure, partAt_map _ _ _ hlen,
    partAt_findNeighbors _ _ _ hi]
  show 0 < (neighborsOf S.h ps i).foldl _ (S.poly6Kernel 0 S.h * (partAt ps i).mass)
  have hinit : 0 < S.poly6Kernel 0 S.h * (partAt ps i).mass :=
    mul_pos (poly6Kernel_zero_pos S S.h hC hh) (hmass i hi)
  refine lt_of_lt_of_le hinit ?_
  refine le_foldl_add
    (fun nb => (partAt (S.findNeighbors ps) nb.idx).mass * S.poly6Kernel nb.distance S.h)
    (neighborsOf S.h ps i) _ ?_
  intro nb hnb
  obtain ⟨hidx, -, -, hdist, -⟩ := mem_neighborsOf.mp hnb
  have hmass' : 0 < (partAt (S.findNeighbors ps) nb.idx).mass := by
    rw [partAt_findNeighbors _ _ _ hidx]
    exact hmass nb.idx hidx
  refine mul_nonneg hmass'.le (poly6Kernel_nonneg S S.h nb.distance hC.le ?_)
  rw [hdist]
  exact Vec3.distanceTo_nonneg _ _

/-- Witness for `density_pos`: the default solver with a single particle. -/
theorem density_pos_witness :
    0 < (mkSPHSystem {}).h ∧
    (∀ q ∈ [mkParticle ⟨0, 0, 0⟩ 1], 0 < q.mass) ∧
    0 < (partAt ((mkSPHSystem {}).computeDensityPressure
          ((mkSPHSystem {}).findNeighbors [mkParticle ⟨0, 0, 0⟩ 1])) 0).density :=
  ⟨by norm_num [mkSPHSystem, jsOrR],
    by
      intro q hq
      simp only [List.mem_singleton] at hq
      subst hq
      norm_num [mkParticle],
    density_pos {} [mkParticle ⟨0, 0, 0⟩ 1] 0
      (by norm_num [mkSPHSystem, jsOrR])
      (by
        intro q hq
        simp only [List.mem_singleton] at hq
        subst hq
        norm_num [mkParticle])
      (by norm_num)⟩

/-! ### C5: neighbor symmetry -/

/-- C5: after `findNeighbors`, particle `i` lists particle `j` iff their
distance is strictly below `h` (a pair at exactly `h` is excluded), hence
membership is symmetric; the recorded distance is `|p_j - p_i|` and the
recorded direction is `normalize(p_j - p_i)`, so the two directions of a
mutual pair are reciprocal. -/
theorem neighbor_symm (S : SPHSystem) (ps : List SPHParticle) (i j : ℕ)
    (hi : i < ps.length) (hj : j < ps.length) (hij : i ≠ j) :
    ((∃ e ∈ (partAt (S.findNeighbors ps) i).neighbors, e.idx = j) ↔
      (partAt ps i).position.distanceTo (partAt ps j).position < S.h) ∧
    ((∃ e ∈ (partAt (S.findNeighbors ps) i).neighbors, e.idx = j) ↔
      (∃ e ∈ (partAt (S.findNeighbors ps) j).neighbors, e.idx = i)) ∧
    (∀ e ∈ (partAt (S.findNeighbors ps) i).neighbors, e.idx = j →
      e.distance = ((partAt ps j).position.sub (partAt ps i).position).length ∧
      e.direction = ((partAt ps j).position.sub (partAt ps i).position).normalize) ∧
    (∀ e ∈ (partAt (S.findNeighbors ps) i).neighbors,
      ∀ e' ∈ (partAt (S.findNeighbors ps) j).neighbors,
        e.idx = j → e'.idx = i → e.direction = e'.direction.neg) := by
  have hkey : ∀ a b : ℕ, a < ps.length → b < ps.length → a ≠ b →
      ((∃ e ∈ neighborsOf S.h ps a, e.idx = b) ↔
        (partAt ps a).position.distanceTo (partAt ps b).position < S.h) := by
    intro a b ha hb hab
    constructor
    · rintro ⟨e, he, hej⟩
      obtain ⟨-, -, hd, -, -⟩ := mem_neighborsOf.mp he
      rwa [hej] at hd
    · intro hd
      refine ⟨⟨b, (partAt ps a).position.distanceTo (partAt ps b).position,
        ((partAt ps b).position.sub (partAt ps a).position).normalize⟩,
        mem_neighborsOf.mpr ⟨hb, Ne.symm hab, hd, rfl, rfl⟩, rfl⟩
  rw [partAt_findNeighbors S ps i hi, partAt_findNeighbors S ps j hj]
  refine ⟨hkey i j hi hj hij, ?_, ?_, ?_⟩
  · rw [hkey i j hi hj hij, hkey j i hj hi (Ne.symm hij),
      Vec3.distanceTo_comm (partAt ps j).position (partAt ps i).position]
  · intro e he hej
    obtain ⟨-, -, -, hdist, hdir⟩ := mem_neighborsOf.mp he
    rw [hej] at hdist hdir
    exact ⟨by rw [hdist, Vec3.distanceTo_eq_length_sub_rev], hdir⟩
  · intro e he e' he' hej hei
    obtain ⟨-, -, -, -, hdir⟩ := mem_neighborsOf.mp he
    obtain ⟨-, -, -, -, hdir'⟩ := mem_neighborsOf.mp he'
    rw [hej] at hdir
    rw [hei] at hdir'
    rw [hdir, hdir',
      Vec3.sub_eq_neg_sub (partAt ps i).position (partAt ps j).position,
      Vec3.normalize_neg, Vec3.neg_neg]

/-- Witness for `neighbor_symm`: the default solver with two particles `0.1`
apart (within `h = 0.16`). -/
theorem neighbor_symm_witness :
    (0 : ℕ) <
      [mkParticle ⟨0, 0, 0⟩ 1, mkParticle ⟨0.1, 0, 0⟩ 1].length ∧
    (1 : ℕ) <
      [mkParticle ⟨0, 0, 0⟩ 1, mkParticle ⟨0.1, 0, 0⟩ 1].length ∧
    (0 : ℕ) ≠ 1 ∧
    ((∃ e ∈ (partAt ((mkSPHSystem {}).findNeighbors
        [mkParticle ⟨0, 0, 0⟩ 1, mkParticle ⟨0.1, 0, 0⟩ 1]) 0).neighbors, e.idx = 1) ↔
      (partAt [mkParticle ⟨0, 0, 0⟩ 1, mkParticle ⟨0.1, 0, 0⟩ 1] 0).position.distanceTo
        (partAt [mkParticle ⟨0, 0, 0⟩ 1, mkParticle ⟨0.1, 0, 0⟩ 1] 1).position <
        (mkSPHSystem {}).h) :=
  ⟨by simp, by simp, by norm_num,
    (neighbor_symm (mkSPHSystem {})
      [mkParticle ⟨0, 0, 0⟩ 1, mkParticle ⟨0.1, 0, 0⟩ 1] 0 1
      (by simp) (by simp) (by norm_num)).1⟩

/-! ### C1: antisymmetry of the pairwise pressure force -/

theorem spikyGradKernel_neg (S : SPHSystem) (r h : ℝ) (d : Vec3) :
    S.spikyGradKernel r h d.neg = (S.spikyGradKernel r h d).neg := by
  rw [SPHSystem.spikyGradKernel, SPHSystem.spikyGradKernel]
  split_ifs with hif
  · show Vec3.zero = Vec3.zero.neg
    unfold Vec3.zero Vec3.neg Vec3.multiplyScalar
    ext <;> norm_num
  · exact Vec3.multiplyScalar_neg d _

theorem neighborsOf_pair_zero (h : ℝ) (P Q : SPHParticle) :
    neighborsOf h [P, Q] 0 =
      if P.position.distanceTo Q.position < h
      then [⟨1, P.position.distanceTo Q.position,
        (Q.position.sub P.position).normalize⟩]
      else [] := by
  unfold neighborsOf
  show List.filterMap _ [0, 1] = _
  rw [List.filterMap_cons, List.filterMap_cons, List.filterMap_nil]
  norm_num [partAt]
  split_ifs <;> rfl

theorem neighborsOf_pair_one (h : ℝ) (P Q : SPHParticle) :
    neighborsOf h [P, Q] 1 =
      if Q.position.distanceTo P.position < h
      then [⟨0, Q.position.distanceTo P.position,
        (P.position.sub Q.position).normalize⟩]
      else [] := by
  unfold neighborsOf
  show List.filterMap _ [0, 1] = _
  rw [List.filterMap_cons, List.filterMap_cons, List.filterMap_nil]
  norm_num [partAt]
  split_ifs <;> rfl

/-- C1: for a two-particle system, both carrying the solver's
`particleMass`, the pressure force accumulated by `computeForces` on
particle `0` after `findNeighbors` and `computeDensityPressure` is the exact
negation of the one accumulated on particle `1`. -/
theorem pressure_force_antisymm_two_particles (S : SPHSystem) (pA pB : Vec3) :
    pressureForceAt S (S.computeDensityPressure (S.findNeighbors
      [mkParticle pA S.particleMass, mkParticle pB S.particleMass])) 0 =
    (pressureForceAt S (S.computeDensityPressure (S.findNeighbors
      [mkParticle pA S.particleMass, mkParticle pB S.particleMass])) 1).neg := by
  set m := S.particleMass with hm
  have hn0 := neighborsOf_pair_zero S.h (mkParticle pA m) (mkParticle pB m)
  have hn1 := neighborsOf_pair_one S.h (mkParticle pA m) (mkParticle pB m)
  rw [show (mkParticle pA m).position = pA from rfl,
    show (mkParticle pB m).position = pB from rfl] at hn0 hn1
  rw [Vec3.distanceTo_comm pB pA] at hn1
  rw [Vec3.sub_eq_neg_sub pA pB, Vec3.normalize_neg] at hn1
  have hfn : S.findNeighbors [mkParticle pA m, mkParticle pB m] =
      [{ mkParticle pA m with neighbors := neighborsOf S.h [mkParticle pA m, mkParticle pB m] 0 },
       { mkParticle pB m with neighbors := neighborsOf S.h [mkParticle pA m, mkParticle pB m] 1 }] := by
    unfold SPHSystem.findNeighbors
    show List.map _ [0, 1] = _
    rfl
  rw [hfn, hn0, hn1]
  by_cases hd : pA.distanceTo pB < S.h
  · simp only [if_pos hd]
    set d := pA.distanceTo pB with hdd
    set u := (pB.sub pA).normalize with hu
    set P0 : SPHParticle := { mkParticle pA m with neighbors := [⟨1, d, u⟩] } with hP0
    set P1 : SPHParticle := { mkParticle pB m with neighbors := [⟨0, d, u.neg⟩] } with hP1
    have hcdp : S.computeDensityPressure [P0, P1] =
        [{ P0 with
            density := S.poly6Kernel 0 S.h * m + m * S.poly6Kernel d S.h
            pressure := S.gasConstant *
              (S.poly6Kernel 0 S.h * m + m * S.poly6Kernel d S.h - S.restDensity) },
         { P1 with
            density := S.poly6Kernel 0 S.h * m + m * S.poly6Kernel d S.h
            pressure := S.gasConstant *
              (S.poly6Kernel 0 S.h * m + m * S.poly6Kernel d S.h - S.restDensity) }] := by
      unfold SPHSystem.computeDensityPressure
      rfl
    rw [hcdp]
    unfold pressureForceAt
    simp only [partAt_cons_zero, partAt_cons_one, List.foldl_cons, List.foldl_nil]
    rw [Vec3.zero_add, Vec3.zero_add, spikyGradKernel_neg,
      Vec3.multiplyScalar_neg, Vec3.neg_neg]
    rfl
  · simp only [if_neg hd]
    show Vec3.zero = Vec3.zero.neg
    unfold Vec3.zero Vec3.neg Vec3.multiplyScalar
    ext <;> norm_num

/-! ### C8: wall reflection at the +x face -/

/-- C8: a single particle at `(max.x + 0.01, 0, 0)` with zero velocity,
after one `handleCollisions` pass with no obstacles, ends at
`position.x = max.x` with `velocity.x = 0`; starting instead with
`velocity.x = 1`, it ends with `velocity.x = -0.5` (damping `0.5`). -/
theorem wall_reflection (S : SPHSystem) (hobs : S.obstacles = [])
    (hbx : S.boundingBox.min.x ≤ S.boundingBox.max.x) :
    (partAt (S.handleCollisions
        [mkParticle ⟨S.boundingBox.max.x + 0.01, 0, 0⟩ S.particleMass])
      0).position.x = S.boundingBox.max.x ∧
    (partAt (S.handleCollisions
        [mkParticle ⟨S.boundingBox.max.x + 0.01, 0, 0⟩ S.particleMass])
      0).velocity.x = 0 ∧
    (partAt (S.handleCollisions
        [{ mkParticle ⟨S.boundingBox.max.x + 0.01, 0, 0⟩ S.particleMass with
            velocity := ⟨1, 0, 0⟩ }]) 0).position.x = S.boundingBox.max.x ∧
    (partAt (S.handleCollisions
        [{ mkParticle ⟨S.boundingBox.max.x + 0.01, 0, 0⟩ S.particleMass with
            velocity := ⟨1, 0, 0⟩ }]) 0).velocity.x = -0.5 := by
  have h1 : ¬ (S.boundingBox.max.x + 0.01 < S.boundingBox.min.x) := by
    push_neg
    linarith
  have h2 : S.boundingBox.max.x + 0.01 > S.boundingBox.max.x := by linarith
  simp only [SPHSystem.handleCollisions, wallCollide, mkParticle, Vec3.zero,
    hobs, List.map_cons, List.map_nil, List.foldl_nil, partAt_cons_zero]
  simp only [if_neg h1, if_pos h2]
  norm_num

/-- Witness for `wall_reflection` at the default solver configuration. -/
theorem wall_reflection_witness :
    (mkSPHSystem {}).obstacles = [] ∧
    (mkSPHSystem {}).boundingBox.min.x ≤ (mkSPHSystem {}).boundingBox.max.x ∧
    (partAt ((mkSPHSystem {}).handleCollisions
        [mkParticle ⟨(mkSPHSystem {}).boundingBox.max.x + 0.01, 0, 0⟩
          (mkSPHSystem {}).particleMass]) 0).velocity.x = 0 :=
  ⟨rfl, by norm_num [mkSPHSystem, jsOrObj],
    (wall_reflection (mkSPHSystem {}) rfl
      (by norm_num [mkSPHSystem, jsOrObj])).2.1⟩

/-! ### C10: frame effect of the box-obstacle collision handler -/

theorem min6_choice (a b c d e f : ℝ) :
    min a (min b (min c (min d (min e f)))) = a ∨
    min a (min b (min c (min d (min e f)))) = b ∨
    min a (min b (min c (min d (min e f)))) = c ∨
    min a (min b (min c (min d (min e f)))) = d ∨
    min a (min b (min c (min d (min e f)))) = e ∨
    min a (min b (min c (min d (min e f)))) = f := by
  rcases min_choice a (min b (min c (min d (min e f)))) with h1 | h1
  · exact Or.inl h1
  rcases min_choice b (min c (min d (min e f))) with h2 | h2
  · exact Or.inr (Or.inl (h1.trans h2))
  rcases min_choice c (min d (min e f)) with h3 | h3
  · exact Or.inr (Or.inr (Or.inl ((h1.trans h2).trans h3)))
  rcases min_choice d (min e f) with h4 | h4
  · exact Or.inr (Or.inr (Or.inr (Or.inl (((h1.trans h2).trans h3).trans h4))))
  rcases min_choice e f with h5 | h5
  · exact Or.inr (Or.inr (Or.inr (Or.inr (Or.inl
      ((((h1.trans h2).trans h3).trans h4).trans h5)))))
  · exact Or.inr (Or.inr (Or.inr (Or.inr (Or.inr
      ((((h1.trans h2).trans h3).trans h4).trans h5)))))

theorem handleCollision_inside_face (b : BoxObstacle) (pos vel : Vec3)
    (damping : ℝ) (hin : boxContains b pos) (normal snapped : Vec3)
    (hface : boxFace b pos = (normal, snapped)) :
    (b.handleCollision pos vel damping).1 = snapped ∧
    (0 ≤ vel.dot normal → (b.handleCollision pos vel damping).2 = vel) := by
  unfold BoxObstacle.handleCollision
  rw [if_pos hin, hface]
  dsimp only
  constructor
  · split_ifs <;> rfl
  · intro hv
    rw [if_neg (not_lt.mpr hv)]

/-- C10: for a particle strictly inside a `BoxObstacle`,
`handleCollision` snaps exactly one position coordinate — the axis of the
selected nearest face (minimum of the six face distances) — onto that face,
leaving the other two coordinates unchanged, and leaves the velocity
unchanged whenever its component along the selected face normal is
non-negative; for a particle not strictly inside, position and velocity are
both unchanged. -/
theorem box_collision_frame (b : BoxObstacle) (pos vel : Vec3) (damping : ℝ) :
    (boxContains b pos →
      (((b.handleCollision pos vel damping).1 = ⟨b.min.x, pos.y, pos.z⟩ ∧
          b.min.x ≠ pos.x ∧ boxMinDist b pos = pos.x - b.min.x ∧
          (0 ≤ vel.dot ⟨-1, 0, 0⟩ → (b.handleCollision pos vel damping).2 = vel)) ∨
        ((b.handleCollision pos vel damping).1 = ⟨b.max.x, pos.y, pos.z⟩ ∧
          b.max.x ≠ pos.x ∧ boxMinDist b pos = b.max.x - pos.x ∧
          (0 ≤ vel.dot ⟨1, 0, 0⟩ → (b.handleCollision pos vel damping).2 = vel)) ∨
        ((b.handleCollision pos vel damping).1 = ⟨pos.x, b.min.y, pos.z⟩ ∧
          b.min.y ≠ pos.y ∧ boxMinDist b pos = pos.y - b.min.y ∧
          (0 ≤ vel.dot ⟨0, -1, 0⟩ → (b.handleCollision pos vel damping).2 = vel)) ∨
        ((b.handleCollision pos vel damping).1 = ⟨pos.x, b.max.y, pos.z⟩ ∧
          b.max.y ≠ pos.y ∧ boxMinDist b pos = b.max.y - pos.y ∧
          (0 ≤ vel.dot ⟨0, 1, 0⟩ → (b.handleCollision pos vel damping).2 = vel)) ∨
        ((b.handleCollision pos vel damping).1 = ⟨pos.x, pos.y, b.min.z⟩ ∧
          b.min.z ≠ pos.z ∧ boxMinDist b pos = pos.z - b.min.z ∧
          (0 ≤ vel.dot ⟨0, 0, -1⟩ → (b.handleCollision pos vel damping).2 = vel)) ∨
        ((b.handleCollision pos vel damping).1 = ⟨pos.x, pos.y, b.max.z⟩ ∧
          b.max.z ≠ pos.z ∧ boxMinDist b pos = b.max.z - pos.z ∧
          (0 ≤ vel.dot ⟨0, 0, 1⟩ → (b.handleCollision pos vel damping).2 = vel)))) ∧
    (¬ boxContains b pos → b.handleCollision pos vel damping = (pos, vel)) := by
  constructor
  · intro hin
    obtain ⟨hx1, hx2, hy1, hy2, hz1, hz2⟩ := hin
    have hin' : boxContains b pos := ⟨hx1, hx2, hy1, hy2, hz1, hz2⟩
    by_cases e1 : boxMinDist b pos = pos.x - b.min.x
    · have hface : boxFace b pos = (⟨-1, 0, 0⟩, ⟨b.min.x, pos.y, pos.z⟩) := by
        unfold boxFace
        rw [if_pos e1]
      have hc := handleCollision_inside_face b pos vel damping hin' _ _ hface
      exact Or.inl ⟨hc.1, ne_of_lt hx1, e1, hc.2⟩
    by_cases e2 : boxMinDist b pos = b.max.x - pos.x
    · have hface : boxFace b pos = (⟨1, 0, 0⟩, ⟨b.max.x, pos.y, pos.z⟩) := by
        unfold boxFace
        rw [if_neg e1, if_pos e2]
      have hc := handleCollision_inside_face b pos vel damping hin' _ _ hface
      exact Or.inr (Or.inl ⟨hc.1, ne_of_gt hx2, e2, hc.2⟩)
    by_cases e3 : boxMinDist b pos = pos.y - b.min.y
    · have hface : boxFace b pos = (⟨0, -1, 0⟩, ⟨pos.x, b.min.y, pos.z⟩) := by
        unfold boxFace
        rw [if_neg e1, if_neg e2, if_pos e3]
      have hc := handleCollision_inside_face b pos vel damping hin' _ _ hface
      exact Or.inr (Or.inr (Or.inl ⟨hc.1, ne_of_lt hy1, e3, hc.2⟩))
    by_cases e4 : boxMinDist b pos = b.max.y - pos.y
    · have hface : boxFace b pos = (⟨0, 1, 0⟩, ⟨pos.x, b.max.y, pos.z⟩) := by
        unfold boxFace
        rw [if_neg e1, if_neg e2, if_neg e3, if_pos e4]
      have hc := handleCollision_inside_face b pos vel damping hin' _ _ hface
      exact Or.inr (Or.inr (Or.inr (Or.inl ⟨hc.1, ne_of_gt hy2, e4, hc.2⟩)))
    by_cases e5 : boxMinDist b pos = pos.z - b.min.z
    · have hface : boxFace b pos = (⟨0, 0, -1⟩, ⟨pos.x, pos.y, b.min.z⟩) := by
        unfold boxFace
        rw [if_neg e1, if_neg e2, if_neg e3, if_neg e4, if_pos e5]
      have hc := handleCollision_inside_face b pos vel damping hin' _ _ hface
      exact Or.inr (Or.inr (Or.inr (Or.inr (Or.inl ⟨hc.1, ne_of_lt hz1, e5, hc.2⟩))))
    by_cases e6 : boxMinDist b pos = b.max.z - pos.z
    · have hface : boxFace b pos = (⟨0, 0, 1⟩, ⟨pos.x, pos.y, b.max.z⟩) := by
        unfold boxFace
        rw [if_neg e1, if_neg e2, if_neg e3, if_neg e4, if_neg e5, if_pos e6]
      have hc := handleCollision_inside_face b pos vel damping hin' _ _ hface
      exact Or.inr (Or.inr (Or.inr (Or.inr (Or.inr
        ⟨hc.1, ne_of_gt hz2, e6, hc.2⟩))))
    · exfalso
      rcases min6_choice (pos.x - b.min.x) (b.max.x - pos.x) (pos.y - b.min.y)
        (b.max.y - pos.y) (pos.z - b.min.z) (b.max.z - pos.z) with
        h | h | h | h | h | h
      exacts [e1 h, e2 h, e3 h, e4 h, e5 h, e6 h]
  · intro hout
    unfold BoxObstacle.handleCollision
    rw [if_neg hout]

/-- Witness for `box_collision_frame`: a particle outside the box (and, via
the first component, one strictly inside a unit box). -/
theorem box_collision_frame_witness :
    ¬ boxContains (mkBoxObstacle ⟨0, 0, 0⟩ ⟨2, 2, 2⟩) ⟨5, 0, 0⟩ ∧
    BoxObstacle.handleCollision (mkBoxObstacle ⟨0, 0, 0⟩ ⟨2, 2, 2⟩)
      ⟨5, 0, 0⟩ ⟨0, 0, -1⟩ 0.5 = (⟨5, 0, 0⟩, ⟨0, 0, -1⟩) := by
  have hout : ¬ boxContains (mkBoxObstacle ⟨0, 0, 0⟩ ⟨2, 2, 2⟩) ⟨5, 0, 0⟩ := by
    unfold boxContains mkBoxObstacle Vec3.sub Vec3.add Vec3.multiplyScalar
    norm_num
  exact ⟨hout,
    (box_collision_frame (mkBoxObstacle ⟨0, 0, 0⟩ ⟨2, 2, 2⟩)
      ⟨5, 0, 0⟩ ⟨0, 0, -1⟩ 0.5).2 hout⟩

/-! ### C9: grid initialization -/

theorem foldl_create_stop (S : SPHSystem) (count : ℕ) :
    ∀ (l : List Vec3) (acc : List SPHParticle) (n : ℕ), ¬ n < count →
      l.foldl (fun st position =>
        if st.2 < count then (S.addParticle st.1 position, st.2 + 1) else st)
        (acc, n) = (acc, n) := by
  intro l
  induction l with
  | nil => intro acc n _; rfl
  | cons p l ih =>
    intro acc n hge
    simp only [List.foldl_cons, if_neg hge]
    exact ih acc n hge

theorem foldl_create_eq (S : SPHSystem) (count : ℕ) :
    ∀ (l : List Vec3) (acc : List SPHParticle) (n : ℕ), n = acc.length →
      n ≤ count →
      l.foldl (fun st position =>
        if st.2 < count then (S.addParticle st.1 position, st.2 + 1) else st)
        (acc, n) =
      (acc ++ (l.map fun position => mkParticle position S.particleMass).take (count - n),
        min count (n + l.length)) := by
  intro l
  induction l with
  | nil =>
    intro acc n hn hle
    subst hn
    simp [Nat.min_eq_right hle]
  | cons p l ih =>
    intro acc n hn hle
    subst hn
    simp only [List.foldl_cons]
    by_cases hlt : acc.length < count
    · rw [if_pos hlt]
      have hlen : (S.addParticle acc p).length = acc.length + 1 := by
        simp [SPHSystem.addParticle]
      rw [ih (S.addParticle acc p) (acc.length + 1) hlen.symm (by omega)]
      have hk : count - acc.length = (count - (acc.length + 1)) + 1 := by omega
      rw [List.map_cons, hk, List.take_succ_cons]
      simp only [Prod.mk.injEq]
      constructor
      · simp [SPHSystem.addParticle, List.append_assoc]
      · simp only [List.length_cons]
        omega
    · rw [if_neg hlt]
      rw [foldl_create_stop S count l acc acc.length hlt]
      have hceq : acc.length = count := le_antisymm hle (not_lt.mp hlt)
      simp only [Prod.mk.injEq]
      constructor
      · rw [show count - acc.length = 0 by omega, List.take_zero, List.append_nil]
      · simp only [List.length_cons]
        omega

/-- C9: `initializeParticles`, starting from an empty collection, creates
particles at the grid positions `min + (i,j,k) * (0.5 h)` in lexicographic
order with `x` outermost and `z` innermost, truncated to the first `count`;
the number created is the minimum of `count` and the grid size
`nx * ny * nz` with `n_axis = ⌊(max-min)/spacing⌋`; every particle carries
the solver's `particleMass`; and the placement is deterministic. -/
theorem grid_placement (S : SPHSystem) (count : ℕ) (region : Box3)
    (_hh : 0 < S.h) :
    (S.initializeParticles count region).map (fun q => q.position) =
      ((List.range (⌊(region.max.x - region.min.x) / (S.h * 0.5)⌋).toNat).flatMap fun i =>
        (List.range (⌊(region.max.y - region.min.y) / (S.h * 0.5)⌋).toNat).flatMap fun j =>
          (List.range (⌊(region.max.z - region.min.z) / (S.h * 0.5)⌋).toNat).map fun (k : ℕ) =>
            (⟨region.min.x + i * (S.h * 0.5), region.min.y + j * (S.h * 0.5),
              region.min.z + k * (S.h * 0.5)⟩ : Vec3)).take count ∧
    (S.initializeParticles count region).length =
      min count ((⌊(region.max.x - region.min.x) / (S.h * 0.5)⌋).toNat *
        ((⌊(region.max.y - region.min.y) / (S.h * 0.5)⌋).toNat *
          (⌊(region.max.z - region.min.z) / (S.h * 0.5)⌋).toNat)) ∧
    (∀ q ∈ S.initializeParticles count region, q.mass = S.particleMass) ∧
    S.initializeParticles count region = S.initializeParticles count region := by
  set spacing := S.h * 0.5 with hspacing
  set nx := (⌊(region.max.x - region.min.x) / spacing⌋).toNat with hnx
  set ny := (⌊(region.max.y - region.min.y) / spacing⌋).toNat with hny
  set nz := (⌊(region.max.z - region.min.z) / spacing⌋).toNat with hnz
  set grid := (List.range nx).flatMap fun i =>
    (List.range ny).flatMap fun j =>
      (List.range nz).map fun (k : ℕ) =>
        (⟨region.min.x + i * spacing, region.min.y + j * spacing,
          region.min.z + k * spacing⟩ : Vec3) with hgrid
  have hmain : S.initializeParticles count region =
      (grid.map fun position => mkParticle position S.particleMass).take (count - 0) := by
    show (grid.foldl (fun st position =>
      if st.2 < count then (S.addParticle st.1 position, st.2 + 1) else st)
      ([], 0)).1 = _
    rw [foldl_create_eq S count grid [] 0 rfl (Nat.zero_le count)]
    simp
  have hglen : grid.length = nx * (ny * nz) := by
    rw [hgrid]
    simp [List.length_flatMap, Function.comp_def, List.map_const',
      List.sum_const_nat]
  refine ⟨?_, ?_, ?_, rfl⟩
  · rw [hmain, Nat.sub_zero, List.map_take, List.map_map]
    rw [show ((fun q : SPHParticle => q.position) ∘
      fun position => mkParticle position S.particleMass) = id from funext fun _ => rfl]
    rw [List.map_id]
  · rw [hmain, Nat.sub_zero, List.length_take, List.length_map, hglen]
  · intro q hq
    rw [hmain] at hq
    obtain ⟨v, -, rfl⟩ := List.mem_map.mp (List.mem_of_mem_take hq)
    rfl

/-- Witness for `grid_placement` at the default solver configuration. -/
theorem grid_placement_witness :
    0 < (mkSPHSystem {}).h ∧
    (∀ q ∈ (mkSPHSystem {}).initializeParticles 4 ⟨⟨0, 0, 0⟩, ⟨1, 1, 1⟩⟩,
      q.mass = (mkSPHSystem {}).particleMass) :=
  ⟨by norm_num [mkSPHSystem, jsOrR],
    (grid_placement (mkSPHSystem {}) 4 ⟨⟨0, 0, 0⟩, ⟨1, 1, 1⟩⟩
      (by norm_num [mkSPHSystem, jsOrR])).2.2.1⟩

end Fluid
